import Mathlib

/-!
Verification of the DocRoute document-classification pipeline.

The development shallowly embeds the pipeline's JavaScript sources:

* `src/server/services/geminiService.js` — `classifyDocument`,
  `validateClassificationResult` (the sanitizer), `validateConfidence`,
  and the JSON-extraction step performed on the raw model reply;
* `src/server/services/documentService.js` — `processDocument`,
  `classifyText`, `buildClassificationResult`, `getConfidenceLevel`,
  `getRoutingRecommendation` and the 50,000-character truncation policy;
* `src/server/config/config.js` — the fixed document-type and department
  enumerations, confidence thresholds, and upload limits (defaults, i.e.
  with no environment overrides present).

Modelling conventions: JavaScript values that can flow through the
pipeline are modelled by `JsValue`; JavaScript numbers by `JsNum`
(NaN, signed infinity, or a rational — rounding of decimal literals to
IEEE doubles is not modelled, every written decimal is taken exactly);
strings are sequences of Unicode scalar values; thrown exceptions are
modelled with `Except`; the two effectful collaborators (the external
Gemini call and on-disk text extraction) are passed in as explicit
`Except`-valued arguments, so each service function is a pure function
of its inputs and the collaborators' outcomes.
-/

/-- JavaScript numbers: NaN, +∞/−∞, or a finite value (modelled as a
rational; IEEE rounding is not modelled). -/
inductive JsNum where
  | nan : JsNum
  | inf (positive : Bool) : JsNum
  | fin (val : ℚ) : JsNum
deriving DecidableEq

/-- JavaScript values reachable from a JSON-decoded candidate or from a
request body: `undefined`, `null`, booleans, numbers, strings, arrays and
plain objects (field lists in insertion order). -/
inductive JsValue where
  | undefined : JsValue
  | null : JsValue
  | bool (b : Bool) : JsValue
  | num (n : JsNum) : JsValue
  | str (s : String) : JsValue
  | arr (elems : List JsValue) : JsValue
  | obj (fields : List (String × JsValue)) : JsValue

/-- JavaScript truthiness: `undefined`, `null`, `false`, `NaN`, `0` and
the empty string are falsy; every other value (all objects and arrays
included) is truthy. -/
def truthy : JsValue → Bool
  | .undefined => false
  | .null => false
  | .bool b => b
  | .num .nan => false
  | .num (.inf _) => true
  | .num (.fin q) => decide (q ≠ 0)
  | .str s => decide (s ≠ "")
  | .arr _ => true
  | .obj _ => true

/-- `String.prototype.toLowerCase` restricted to ASCII case mapping (the
enumeration members compared against are all ASCII). -/
def jsToLowerCase (s : String) : String := ⟨s.data.map Char.toLower⟩

/-- Whitespace skipped by `parseFloat` / removed by `String.prototype.trim`
(ASCII whitespace plus NBSP; other Unicode space separators behave the
same way and do not occur in the claims). -/
def isWsChar (c : Char) : Bool :=
  c = ' ' ∨ c = '\t' ∨ c = '\n' ∨ c = '\r' ∨
  c = Char.ofNat 11 ∨ c = Char.ofNat 12 ∨ c = Char.ofNat 160

/-- `String.prototype.trim`: drop leading and trailing whitespace. -/
def jsTrim (s : String) : String :=
  ⟨((s.data.dropWhile isWsChar).reverse.dropWhile isWsChar).reverse⟩

/-- Split a character list into its leading run of decimal digits and the
rest. -/
def takeDigits : List Char → List Char × List Char
  | [] => ([], [])
  | c :: rest =>
    if c.isDigit then
      let (ds, r) := takeDigits rest
      (c :: ds, r)
    else ([], c :: rest)

/-- Numeric value of a list of decimal digits. -/
def digitsToNat (ds : List Char) : ℕ :=
  ds.foldl (fun a c => 10 * a + (c.toNat - 48)) 0

/-- Fractional decimal digits of `r / d` (`r < d`), up to `steps` digits;
stops when the remainder reaches zero. -/
def decimalDigitsAux : ℕ → ℕ → ℕ → List Char
  | 0, _, _ => []
  | _ + 1, 0, _ => []
  | steps + 1, r, d =>
    Char.ofNat (48 + (r * 10) / d) :: decimalDigitsAux steps ((r * 10) % d) d

/-- Decimal rendering of a rational, as `Number.prototype.toString` would
print it: integers without a decimal point, terminating expansions exactly
(JavaScript prints the shortest round-tripping decimal of the nearest
double; non-terminating expansions are truncated at 30 digits — a corner
this model never relies on). -/
def ratDecimalString (q : ℚ) : String :=
  let sgn := if q < 0 then "-" else ""
  let n := q.num.natAbs
  let d := q.den
  let r := n % d
  if r = 0 then sgn ++ toString (n / d)
  else sgn ++ toString (n / d) ++ "." ++ ⟨decimalDigitsAux 30 r d⟩

/-- `Number.prototype.toString` on the modelled numbers. -/
def jsNumToString : JsNum → String
  | .nan => "NaN"
  | .inf true => "Infinity"
  | .inf false => "-Infinity"
  | .fin q => ratDecimalString q

mutual
/-- JavaScript `ToString` on the modelled values: `Array.prototype.join`
with `","` for arrays (with `null`/`undefined` elements rendered empty),
`"[object Object]"` for plain objects. -/
def jsToString : JsValue → String
  | .undefined => "undefined"
  | .null => "null"
  | .bool true => "true"
  | .bool false => "false"
  | .num n => jsNumToString n
  | .str s => s
  | .arr xs => String.intercalate "," (jsToStringList xs)
  | .obj _ => "[object Object]"

/-- Element renderings used by `Array.prototype.join`. -/
def jsToStringList : List JsValue → List String
  | [] => []
  | .null :: vs => "" :: jsToStringList vs
  | .undefined :: vs => "" :: jsToStringList vs
  | v :: vs => jsToString v :: jsToStringList vs
end

/-- `parseFloat` applied to a string: skip leading whitespace, optional
sign, then either `Infinity` or the longest prefix matching a decimal
literal (digits, optional fraction, optional exponent); `NaN` when no
prefix parses. -/
def parseFloatString (s : String) : JsNum :=
  let cs := s.data.dropWhile isWsChar
  let (neg, cs) :=
    match cs with
    | '-' :: r => (true, r)
    | '+' :: r => (false, r)
    | _ => (false, cs)
  if cs.take 8 = "Infinity".data then .inf (!neg)
  else
    let (ip, cs1) := takeDigits cs
    let (fp, cs2) :=
      match cs1 with
      | '.' :: r => takeDigits r
      | _ => ([], cs1)
    if ip = [] ∧ fp = [] then .nan
    else
      let mantNum : ℕ := digitsToNat ip * 10 ^ fp.length + digitsToNat fp
      let mantDen : ℕ := 10 ^ fp.length
      let nd : ℕ × ℕ :=
        match cs2 with
        | c :: r =>
          if c = 'e' ∨ c = 'E' then
            let (eneg, r2) :=
              match r with
              | '-' :: r3 => (true, r3)
              | '+' :: r3 => (false, r3)
              | _ => (false, r)
            let (eds, _) := takeDigits r2
            if eds = [] then (mantNum, mantDen)
            else if eneg then (mantNum, mantDen * 10 ^ digitsToNat eds)
            else (mantNum * 10 ^ digitsToNat eds, mantDen)
          else (mantNum, mantDen)
        | [] => (mantNum, mantDen)
      .fin (mkRat (if neg then -(nd.1 : ℤ) else (nd.1 : ℤ)) nd.2)

/-- `parseFloat(v)`: `ToString` the argument, then parse. On a number
argument the `ToString`/parse round trip is the identity for this model's
numbers, so the number is returned directly. -/
def jsParseFloat : JsValue → JsNum
  | .num n => n
  | v => parseFloatString (jsToString v)

/-- Whitespace skipped inside JSON text (`JSON.parse`): space, tab,
newline, carriage return. -/
def skipJsonWs : List Char → List Char
  | c :: cs =>
    if c = ' ' ∨ c = '\t' ∨ c = '\n' ∨ c = '\r' then skipJsonWs cs
    else c :: cs
  | [] => []

/-- Value of a hexadecimal digit. -/
def hexDigitVal (c : Char) : Option ℕ :=
  if c.isDigit then some (c.toNat - 48)
  else if 'a' ≤ c ∧ c ≤ 'f' then some (c.toNat - 87)
  else if 'A' ≤ c ∧ c ≤ 'F' then some (c.toNat - 55)
  else none

/-- Body of a JSON string literal (opening quote already consumed):
returns the decoded string and the input after the closing quote, or
`none` on a malformed literal. `\uXXXX` escapes are mapped through
`Char.ofNat` (lone surrogates collapse to its fallback character — a
corner no claim relies on). -/
def parseJsonString (acc : List Char) : List Char → Option (String × List Char)
  | '"' :: rest => some (⟨acc.reverse⟩, rest)
  | '\\' :: c :: rest =>
    if c = '"' then parseJsonString ('"' :: acc) rest
    else if c = '\\' then parseJsonString ('\\' :: acc) rest
    else if c = '/' then parseJsonString ('/' :: acc) rest
    else if c = 'b' then parseJsonString (Char.ofNat 8 :: acc) rest
    else if c = 'f' then parseJsonString (Char.ofNat 12 :: acc) rest
    else if c = 'n' then parseJsonString ('\n' :: acc) rest
    else if c = 'r' then parseJsonString ('\r' :: acc) rest
    else if c = 't' then parseJsonString ('\t' :: acc) rest
    else if c = 'u' then
      match rest with
      | h1 :: h2 :: h3 :: h4 :: rest2 =>
        match hexDigitVal h1, hexDigitVal h2, hexDigitVal h3, hexDigitVal h4 with
        | some a, some b, some c2, some d =>
          parseJsonString (Char.ofNat (4096 * a + 256 * b + 16 * c2 + d) :: acc) rest2
        | _, _, _, _ => none
      | _ => none
    else none
  | c :: rest =>
    if c.toNat < 32 then none else parseJsonString (c :: acc) rest
  | [] => none

/-- A JSON number literal prefix: optional minus, integer part (`0` or a
nonzero-led digit run), optional fraction, optional exponent. A malformed
fraction or exponent is left unconsumed, so the stray characters fail at
the enclosing level, exactly as `JSON.parse` rejects them. -/
def parseJsonNumberVal (cs : List Char) : Option (JsValue × List Char) :=
  let signSplit : Bool × List Char :=
    match cs with
    | '-' :: tl => (true, tl)
    | _ => (false, cs)
  let neg := signSplit.1
  let cs1 := signSplit.2
  match cs1 with
  | c :: rest =>
    if c.isDigit then
      let (ip, cs2) := if c = '0' then (['0'], rest) else takeDigits cs1
      let (fp, cs3) :=
        match cs2 with
        | '.' :: r =>
          let (ds, r2) := takeDigits r
          if ds = [] then (([] : List Char), cs2) else (ds, r2)
        | _ => ([], cs2)
      let (ex, cs4) :=
        match cs3 with
        | c2 :: r =>
          if c2 = 'e' ∨ c2 = 'E' then
            let (eneg, r2) :=
              match r with
              | '-' :: r3 => (true, r3)
              | '+' :: r3 => (false, r3)
              | _ => (false, r)
            let (eds, r3) := takeDigits r2
            if eds = [] then (none, cs3) else (some (eneg, digitsToNat eds), r3)
          else (none, cs3)
        | [] => (none, cs3)
      let mantNum : ℕ := digitsToNat ip * 10 ^ fp.length + digitsToNat fp
      let mantDen : ℕ := 10 ^ fp.length
      let nd : ℕ × ℕ :=
        match ex with
        | none => (mantNum, mantDen)
        | some (true, e) => (mantNum, mantDen * 10 ^ e)
        | some (false, e) => (mantNum * 10 ^ e, mantDen)
      some (.num (.fin (mkRat (if neg then -(nd.1 : ℤ) else (nd.1 : ℤ)) nd.2)), cs4)
    else none
  | [] => none

mutual
/-- One JSON value (`JSON.parse` grammar), fuel-indexed for termination;
the fuel supplied by `jsonParse` is large enough that it is never the
reason a well-formed input is rejected. -/
def parseJsonValue : ℕ → List Char → Option (JsValue × List Char)
  | 0, _ => none
  | fuel + 1, cs =>
    match skipJsonWs cs with
    | 'n' :: 'u' :: 'l' :: 'l' :: after => some (.null, after)
    | 't' :: 'r' :: 'u' :: 'e' :: after => some (.bool true, after)
    | 'f' :: 'a' :: 'l' :: 's' :: 'e' :: after => some (.bool false, after)
    | '"' :: rest =>
      match parseJsonString [] rest with
      | some (s, r) => some (.str s, r)
      | none => none
    | '[' :: rest => parseJsonArrayItems fuel rest true []
    | '{' :: rest => parseJsonObjectItems fuel rest true []
    | cs2 => parseJsonNumberVal cs2

/-- Elements of a JSON array (opening bracket already consumed). -/
def parseJsonArrayItems : ℕ → List Char → Bool → List JsValue → Option (JsValue × List Char)
  | 0, _, _, _ => none
  | fuel + 1, cs, isFirst, acc =>
    match isFirst, skipJsonWs cs with
    | true, ']' :: rest => some (.arr [], rest)
    | _, cs1 =>
      match parseJsonValue fuel cs1 with
      | some (v, cs2) =>
        match skipJsonWs cs2 with
        | ',' :: rest => parseJsonArrayItems fuel rest false (v :: acc)
        | ']' :: rest => some (.arr (v :: acc).reverse, rest)
        | _ => none
      | none => none

/-- Members of a JSON object (opening brace already consumed); duplicate
keys are kept in order, and field lookup takes the last occurrence, as
`JSON.parse` does. -/
def parseJsonObjectItems : ℕ → List Char → Bool → List (String × JsValue) → Option (JsValue × List Char)
  | 0, _, _, _ => none
  | fuel + 1, cs, isFirst, acc =>
    match isFirst, skipJsonWs cs with
    | true, '}' :: rest => some (.obj [], rest)
    | _, cs1 =>
      match cs1 with
      | '"' :: r =>
        match parseJsonString [] r with
        | some (k, cs2) =>
          match skipJsonWs cs2 with
          | ':' :: cs3 =>
            match parseJsonValue fuel cs3 with
            | some (v, cs4) =>
              match skipJsonWs cs4 with
              | ',' :: rest => parseJsonObjectItems fuel rest false ((k, v) :: acc)
              | '}' :: rest => some (.obj ((k, v) :: acc).reverse, rest)
              | _ => none
            | none => none
          | _ => none
        | none => none
      | _ => none
end

/-- `JSON.parse`: one JSON value covering the whole input up to trailing
whitespace; `none` models the thrown `SyntaxError`. -/
def jsonParse (s : String) : Option JsValue :=
  match parseJsonValue (2 * s.length + 2) s.data with
  | some (v, rest) => if skipJsonWs rest = [] then some v else none
  | none => none

/-- The regex step `text.match(/\x7b[\s\S]*\x7d/)` in `classifyDocument`:
a greedy match running from the first open brace to the last close brace
of the reply (the two at distinct positions, in order); `none` models a
null match. -/
def jsonMatch (s : String) : Option String :=
  match s.data.findIdx? (· = '{'), s.data.reverse.findIdx? (· = '}') with
  | some i, some k =>
    let j := s.data.length - 1 - k
    if i < j then some ⟨(s.data.drop i).take (j - i + 1)⟩ else none
  | _, _ => none

/-- JavaScript property read `v[key]` on a decoded JSON value: `undefined`
when the value is not an object or lacks the key; the last duplicate of a
key wins, as in `JSON.parse`. -/
def jsGetField (v : JsValue) (key : String) : JsValue :=
  match v with
  | .obj fields =>
    match (fields.filter (fun p => p.1 = key)).getLast? with
    | some p => p.2
    | none => .undefined
  | _ => .undefined

/-- The untrusted classification candidate: the seven fields
`validateClassificationResult` reads from the JSON-decoded model reply,
each an arbitrary JavaScript value (`undefined` when absent). -/
structure ClassificationCandidate where
  documentType : JsValue
  confidence : JsValue
  department : JsValue
  routingConfidence : JsValue
  extractedData : JsValue
  reasoning : JsValue
  suggestedActions : JsValue

/-- The sanitized classification record produced by
`validateClassificationResult`. -/
structure ClassificationResult where
  documentType : String
  confidence : JsNum
  department : String
  routingConfidence : JsNum
  extractedData : JsValue
  reasoning : JsValue
  suggestedActions : List JsValue

/-- `ApiError(statusCode, message)` from `src/server/utils/ApiError.js`. -/
structure ApiError where
  statusCode : ℕ
  message : String
deriving DecidableEq

/-- `Object.values(config.documentTypes)` (config.js). -/
def validDocumentTypes : List String :=
  ["invoice", "purchase_order", "contract", "receipt", "proposal", "agreement", "other"]

/-- `Object.values(config.departments)` (config.js). -/
def validDepartments : List String :=
  ["finance", "procurement", "legal", "operations", "general"]

/-- `config.maxFileSize` default: `10 * 1024 * 1024`. -/
def configMaxFileSize : ℕ := 10 * 1024 * 1024

/-- `config.allowedFileTypes` default. -/
def configAllowedFileTypes : List String := ["application/pdf", "text/plain"]

/-- The enum-coercion step of `validateClassificationResult`:
`if (!field || !valid.includes(field.toLowerCase())) field = dflt; else
field = field.toLowerCase()`. Calling `.toLowerCase()` on a truthy
non-string raises a `TypeError`, modelled by the `.error` branch. -/
def coerceEnumField (v : JsValue) (valid : List String) (dflt : String) : Except String String :=
  if ¬ truthy v then .ok dflt
  else
    match v with
    | .str s =>
      .ok (if valid.contains (jsToLowerCase s) then jsToLowerCase s else dflt)
    | _ => .error "TypeError: toLowerCase is not a function"

/-- `validateConfidence` (geminiService.js): `parseFloat` the value and
replace it with `0.5` when the result is `NaN` or outside `[0, 1]`. -/
def validateConfidence (confidence : JsValue) : JsNum :=
  match jsParseFloat confidence with
  | .nan => .fin (mkRat 1 2)
  | .inf _ => .fin (mkRat 1 2)
  | .fin q => if q < 0 ∨ q > 1 then .fin (mkRat 1 2) else .fin q

/-- `validateClassificationResult` (geminiService.js): coerce the two enum
fields (this step can throw, see `coerceEnumField`), clamp the two
confidence scores, default `extractedData`, `reasoning` and
`suggestedActions`. `Array.isArray` is the only check applied to
`suggestedActions`. -/
def validateClassificationResult (result : ClassificationCandidate) :
    Except String ClassificationResult :=
  match coerceEnumField result.documentType validDocumentTypes "other" with
  | .error e => .error e
  | .ok documentType =>
    match coerceEnumField result.department validDepartments "general" with
    | .error e => .error e
    | .ok department =>
      .ok
        { documentType := documentType
          confidence := validateConfidence result.confidence
          department := department
          routingConfidence := validateConfidence result.routingConfidence
          extractedData :=
            if truthy result.extractedData then result.extractedData else .obj []
          reasoning :=
            if truthy result.reasoning then result.reasoning
            else .str "Classification completed"
          suggestedActions :=
            match result.suggestedActions with
            | .arr xs => xs
            | _ => [] }

/-- Read the seven candidate fields off a decoded JSON value. -/
def candidateOfJson (v : JsValue) : ClassificationCandidate :=
  { documentType := jsGetField v "documentType"
    confidence := jsGetField v "confidence"
    department := jsGetField v "department"
    routingConfidence := jsGetField v "routingConfidence"
    extractedData := jsGetField v "extractedData"
    reasoning := jsGetField v "reasoning"
    suggestedActions := jsGetField v "suggestedActions" }

/-- The fixed fallback candidate `classifyDocument` substitutes when the
reply holds no brace-delimited span or that span fails `JSON.parse`. -/
def fallbackCandidate : ClassificationCandidate :=
  { documentType := .str "other"
    confidence := .num (.fin (mkRat 3 10))
    department := .str "general"
    routingConfidence := .num (.fin (mkRat 3 10))
    extractedData := .obj [("note", .str "AI could not classify this document properly")]
    reasoning := .str "Classification failed due to non-JSON response from AI model"
    suggestedActions := .arr [.str "Manual review required", .str "Check document format and content"] }

/-- The reply-decoding step of `classifyDocument`: greedy brace match,
then `JSON.parse`; any failure of either yields `fallbackCandidate`
instead of an error. -/
def parseGeminiResponse (text : String) : ClassificationCandidate :=
  match jsonMatch text with
  | none => fallbackCandidate
  | some sub =>
    match jsonParse sub with
    | none => fallbackCandidate
    | some v => candidateOfJson v

/-- `classifyDocument` (geminiService.js) as a function of the document
content and of the outcome of the single external Gemini call
(`.error` = the call itself threw a transport/auth/quota error,
`.ok text` = the raw textual reply). A thrown non-`ApiError` — whether
the failed external call or a sanitizer `TypeError` — is converted by the
catch block into `ApiError(500, "Failed to classify document with AI
model")`; `ApiError`s are rethrown unchanged. -/
def classifyDocument : JsValue → Except String String → Except ApiError ClassificationResult
  | .str s, geminiCall =>
    if s = "" then .error ⟨400, "Document content is required and must be a string"⟩
    else
      match geminiCall with
      | .error _ => .error ⟨500, "Failed to classify document with AI model"⟩
      | .ok text =>
        match validateClassificationResult (parseGeminiResponse text) with
        | .ok r => .ok r
        | .error _ => .error ⟨500, "Failed to classify document with AI model"⟩
  | _, _ => .error ⟨400, "Document content is required and must be a string"⟩

/-- JavaScript `n >= q` on a number: false for `NaN`, true for `+Infinity`,
false for `-Infinity`, the rational comparison otherwise. -/
def jsGe (n : JsNum) (q : ℚ) : Bool :=
  match n with
  | .nan => false
  | .inf b => b
  | .fin x => decide (q ≤ x)

/-- `getConfidenceLevel` (documentService.js), with
`config.confidenceLevels.HIGH = 0.8` and `MEDIUM = 0.6`. -/
def getConfidenceLevel (confidence : JsNum) : String :=
  if jsGe confidence (mkRat 4 5) then "high"
  else if jsGe confidence (mkRat 3 5) then "medium"
  else "low"

/-- The `departmentNames` table inside `getRoutingRecommendation`. -/
def departmentNames : List (String × String) :=
  [("finance", "Finance Department"),
   ("procurement", "Procurement Department"),
   ("legal", "Legal Department"),
   ("operations", "Operations Department"),
   ("general", "General Administration")]

/-- The property names every plain object literal inherits from
`Object.prototype`; `departmentNames[key]` at one of these keys finds the
inherited built-in (a function, or `Object.prototype` itself for
`__proto__`) instead of `undefined`. -/
def objectPrototypeProperties : List String :=
  ["constructor", "hasOwnProperty", "isPrototypeOf", "propertyIsEnumerable",
   "toLocaleString", "toString", "valueOf", "__proto__",
   "__defineGetter__", "__defineSetter__", "__lookupGetter__", "__lookupSetter__"]

/-- The string a template literal makes of the built-in inherited at `key`:
a native-function source string (`constructor` is the `Object` function;
exact whitespace of native-function strings is engine-specific — V8's
rendering is used here; no claim depends on the precise text, only on it
differing from every department display name), and `"[object Object]"`
for the `__proto__` accessor's result. -/
def inheritedBuiltinString (key : String) : String :=
  if key = "constructor" then "function Object() \x7b [native code] \x7d"
  else if key = "__proto__" then "[object Object]"
  else "function " ++ key ++ "() \x7b [native code] \x7d"

/-- `departmentNames[department] || 'General Administration'`: JavaScript
property access checks own properties first, then the prototype chain —
an inherited `Object.prototype` member is truthy, so the `||` fallback is
taken only when the key is neither an own key nor an inherited property
name. -/
def departmentDisplayName (department : String) : String :=
  match departmentNames.find? (fun p => p.1 = department) with
  | some p => p.2
  | none =>
    if department ∈ objectPrototypeProperties then inheritedBuiltinString department
    else "General Administration"

/-- `getRoutingRecommendation` (documentService.js): display name plus one
of three messages keyed by the 0.8 / 0.6 thresholds on the routing
confidence. -/
def getRoutingRecommendation (department : String) (confidence : JsNum) : String :=
  let deptName := departmentDisplayName department
  if jsGe confidence (mkRat 4 5) then
    "Recommended for automatic routing to " ++ deptName
  else if jsGe confidence (mkRat 3 5) then
    "Suggested routing to " ++ deptName ++ " - Manual review recommended"
  else
    "Low confidence routing to " ++ deptName ++ " - Manual review required"

/-- The outward classification payload built by `buildClassificationResult`
(documentService.js): the sanitized fields plus the two derived routing
fields. The spread request metadata (file name, sizes, timestamps) is
carried separately by the flow outcomes and never read by the pipeline
logic, so it is not repeated here. -/
structure BuiltResult where
  documentType : String
  confidence : JsNum
  department : String
  routingConfidence : JsNum
  extractedData : JsValue
  reasoning : JsValue
  suggestedActions : List JsValue
  confidenceLevel : String
  routingRecommendation : String

/-- `buildClassificationResult` (documentService.js). -/
def buildClassificationResult (c : ClassificationResult) : BuiltResult :=
  { documentType := c.documentType
    confidence := c.confidence
    department := c.department
    routingConfidence := c.routingConfidence
    extractedData := c.extractedData
    reasoning := c.reasoning
    suggestedActions := c.suggestedActions
    confidenceLevel := getConfidenceLevel c.confidence
    routingRecommendation := getRoutingRecommendation c.department c.routingConfidence }

/-- `const maxTextLength = 50000` (both flow bodies). -/
def maxTextLength : ℕ := 50000

/-- The marker `'\n...(truncated)'` appended to cut text. -/
def truncationMarker : String := "\n...(truncated)"

/-- `s.substring(0, n)` (string indices; the model counts scalar values
where JavaScript counts UTF-16 units — identical on the claims' inputs). -/
def jsSubstringTo (s : String) (n : ℕ) : String := ⟨s.data.take n⟩

/-- The truncation expression inside `processDocument`:
`extractedText.length > maxTextLength ? extractedText.substring(0, maxTextLength) + '\n...(truncated)' : extractedText`. -/
def processDocumentTruncate (extractedText : String) : String :=
  if extractedText.length > maxTextLength then
    jsSubstringTo extractedText maxTextLength ++ truncationMarker
  else extractedText

/-- The identical truncation expression inside `classifyText`. -/
def classifyTextTruncate (textContent : String) : String :=
  if textContent.length > maxTextLength then
    jsSubstringTo textContent maxTextLength ++ truncationMarker
  else textContent

/-- The multer-provided upload record fields `processDocument` reads. -/
structure UploadedFile where
  path : String
  originalname : String
  mimetype : String
  size : ℕ

/-- Observable outcome of one `processDocument` invocation: the returned
value or thrown `ApiError`, the text handed to
`geminiService.classifyDocument` (`none` when the flow failed before that
call), and whether the `finally` block invoked `cleanupTempFile` on the
transient upload. -/
structure FileFlowOutcome where
  result : Except ApiError BuiltResult
  sentToClassifier : Option String
  cleanupInvoked : Bool

/-- Observable outcome of one `classifyText` invocation. -/
structure TextFlowOutcome where
  result : Except ApiError BuiltResult
  sentToClassifier : Option String

/-- `processDocument` (documentService.js) as a function of the uploaded
file (`none` models a missing `file`), the outcome of text extraction
(`extractTextFromFile`, which throws only `ApiError`s), and the outcome of
the external Gemini call. The `finally` block runs `cleanupTempFile`
whenever `tempFilePath` was set to a truthy path, on success and on every
error path alike. -/
def processDocument : Option UploadedFile → Except ApiError String →
    Except String String → FileFlowOutcome
  | none, _, _ =>
    { result := .error ⟨400, "No file provided"⟩
      sentToClassifier := none
      cleanupInvoked := false }
  | some f, extraction, geminiCall =>
    if f.size > configMaxFileSize then
      { result := .error ⟨400, "File size exceeds maximum limit of 10MB"⟩
        sentToClassifier := none
        cleanupInvoked := f.path ≠ "" }
    else if ¬ configAllowedFileTypes.contains f.mimetype then
      { result := .error ⟨400, "File type " ++ f.mimetype ++ " is not supported. Allowed types: application/pdf, text/plain"⟩
        sentToClassifier := none
        cleanupInvoked := f.path ≠ "" }
    else
      match extraction with
      | .error e =>
        { result := .error e
          sentToClassifier := none
          cleanupInvoked := f.path ≠ "" }
      | .ok extractedText =>
        match classifyDocument (.str (processDocumentTruncate extractedText)) geminiCall with
        | .error e =>
          { result := .error e
            sentToClassifier := some (processDocumentTruncate extractedText)
            cleanupInvoked := f.path ≠ "" }
        | .ok classification =>
          { result := .ok (buildClassificationResult classification)
            sentToClassifier := some (processDocumentTruncate extractedText)
            cleanupInvoked := f.path ≠ "" }

/-- `classifyText` (documentService.js) as a function of the request text
(an arbitrary body value) and the outcome of the external Gemini call.
Falsy or non-string content, and content whose trim is empty, are rejected
before the classifier is ever reached. -/
def classifyText (textContent : JsValue) (geminiCall : Except String String) :
    TextFlowOutcome :=
  if ¬ truthy textContent then
    { result := .error ⟨400, "Text content is required"⟩, sentToClassifier := none }
  else
    match textContent with
    | .str s =>
      if (jsTrim s).length = 0 then
        { result := .error ⟨400, "Text content cannot be empty"⟩, sentToClassifier := none }
      else
        match classifyDocument (.str (classifyTextTruncate s)) geminiCall with
        | .error e =>
          { result := .error e, sentToClassifier := some (classifyTextTruncate s) }
        | .ok classification =>
          { result := .ok (buildClassificationResult classification)
            sentToClassifier := some (classifyTextTruncate s) }
    | _ =>
      { result := .error ⟨400, "Text content is required"⟩, sentToClassifier := none }

/-- Modelled from the spec: the confidence coercion as §4.3 words it —
parse as a real number; if parsing fails, or the value lies outside
`[0, 1]`, replace with `0.5`. Stated for comparison against
`validateConfidence`. -/
def specConfidenceCoercion (v : JsValue) : JsNum :=
  match jsParseFloat v with
  | .fin q => if 0 ≤ q ∧ q ≤ 1 then .fin q else .fin (mkRat 1 2)
  | _ => .fin (mkRat 1 2)

/-- A candidate field on which the sanitizer's `.toLowerCase()` call is
safe: a string, or any falsy value (the falsy branch assigns the default
without calling a method). -/
def stringOrFalsy : JsValue → Bool
  | .str _ => true
  | v => ! truthy v

/-- A reply that yields no decodable JSON: the greedy brace match is null,
or its span fails `JSON.parse`. -/
def malformedReply (text : String) : Prop :=
  jsonMatch text = none ∨ ∃ sub, jsonMatch text = some sub ∧ jsonParse sub = none

/-- The sanitized form of `fallbackCandidate`. -/
def fallbackSanitized : ClassificationResult :=
  { documentType := "other"
    confidence := .fin (mkRat 3 10)
    department := "general"
    routingConfidence := .fin (mkRat 3 10)
    extractedData := .obj [("note", .str "AI could not classify this document properly")]
    reasoning := .str "Classification failed due to non-JSON response from AI model"
    suggestedActions := [.str "Manual review required", .str "Check document format and content"] }

/-- A candidate with every field absent. -/
def undefinedCandidate : ClassificationCandidate :=
  ⟨.undefined, .undefined, .undefined, .undefined, .undefined, .undefined, .undefined⟩

/-- The sanitized form of `undefinedCandidate`. -/
def undefinedSanitized : ClassificationResult :=
  ⟨"other", .fin (mkRat 1 2), "general", .fin (mkRat 1 2), .obj [], .str "Classification completed", []⟩

/-- A candidate whose `documentType` is the (truthy, non-string) number 1. -/
def numericTypeCandidate : ClassificationCandidate :=
  ⟨.num (.fin (mkRat 1 1)), .undefined, .undefined, .undefined, .undefined, .undefined, .undefined⟩

/-- A candidate with an in-range string confidence and an out-of-range
numeric routing confidence. -/
def mixedConfidenceCandidate : ClassificationCandidate :=
  ⟨.undefined, .str "0.95", .undefined, .num (.fin (mkRat 2 1)), .undefined, .undefined, .undefined⟩

/-- The sanitized form of `mixedConfidenceCandidate`. -/
def mixedConfidenceSanitized : ClassificationResult :=
  ⟨"other", .fin (mkRat 19 20), "general", .fin (mkRat 1 2), .obj [], .str "Classification completed", []⟩

/-- A candidate with mixed-case member strings in both enum fields. -/
def upperInvoiceCandidate : ClassificationCandidate :=
  ⟨.str "INVOICE", .undefined, .str "Finance", .undefined, .undefined, .undefined, .undefined⟩

/-- The sanitized form of `upperInvoiceCandidate`. -/
def upperInvoiceSanitized : ClassificationResult :=
  ⟨"invoice", .fin (mkRat 1 2), "finance", .fin (mkRat 1 2), .obj [], .str "Classification completed", []⟩

/-- A candidate whose `suggestedActions` is an array holding a non-string
element. -/
def numericActionsCandidate : ClassificationCandidate :=
  ⟨.undefined, .undefined, .undefined, .undefined, .undefined, .undefined, .arr [.num (.fin (mkRat 1 1))]⟩

/-- The sanitized form of `numericActionsCandidate`: the array passes
through untouched. -/
def numericActionsSanitized : ClassificationResult :=
  ⟨"other", .fin (mkRat 1 2), "general", .fin (mkRat 1 2), .obj [], .str "Classification completed", [.num (.fin (mkRat 1 1))]⟩

/-- A candidate whose `suggestedActions` is an array of strings. -/
def stringActionsCandidate : ClassificationCandidate :=
  ⟨.undefined, .undefined, .undefined, .undefined, .undefined, .undefined, .arr [.str "Review"]⟩

/-- The sanitized form of `stringActionsCandidate`. -/
def stringActionsSanitized : ClassificationResult :=
  ⟨"other", .fin (mkRat 1 2), "general", .fin (mkRat 1 2), .obj [], .str "Classification completed", [.str "Review"]⟩

/-- A 50,001-character text, one over the truncation cap. -/
def longSampleText : String := ⟨List.replicate 50001 'a'⟩

/-- A small in-policy upload record. -/
def sampleUpload : UploadedFile :=
  ⟨"/tmp/upload-1.txt", "invoice.txt", "text/plain", 1024⟩

theorem validateConfidence_eq_spec (v : JsValue) :
    validateConfidence v = specConfidenceCoercion v := by
  unfold validateConfidence specConfidenceCoercion
  cases jsParseFloat v with
  | nan => rfl
  | inf b => rfl
  | fin q =>
    by_cases h : q < 0 ∨ q > 1
    · have h2 : ¬ (0 ≤ q ∧ q ≤ 1) := by
        rcases h with h | h
        · exact fun hc => absurd hc.1 (not_le.mpr h)
        · exact fun hc => absurd hc.2 (not_le.mpr h)
      simp [h, h2]
    · have h2 : 0 ≤ q ∧ q ≤ 1 := by
        have h3 := h
        push_neg at h3
        exact h3
      simp [h, h2]

theorem validate_ok_fields (c : ClassificationCandidate) (r : ClassificationResult)
    (h : validateClassificationResult c = .ok r) :
    coerceEnumField c.documentType validDocumentTypes "other" = .ok r.documentType ∧
    coerceEnumField c.department validDepartments "general" = .ok r.department ∧
    r.confidence = validateConfidence c.confidence ∧
    r.routingConfidence = validateConfidence c.routingConfidence ∧
    r.extractedData = (if truthy c.extractedData then c.extractedData else .obj []) ∧
    r.reasoning = (if truthy c.reasoning then c.reasoning else .str "Classification completed") ∧
    r.suggestedActions = (match c.suggestedActions with | .arr xs => xs | _ => []) := by
  unfold validateClassificationResult at h
  cases h1 : coerceEnumField c.documentType validDocumentTypes "other" with
  | error e => rw [h1] at h; cases h
  | ok dt =>
    rw [h1] at h
    cases h2 : coerceEnumField c.department validDepartments "general" with
    | error e => rw [h2] at h; cases h
    | ok dep =>
      rw [h2] at h
      injection h with h3
      subst h3
      exact ⟨rfl, rfl, rfl, rfl, rfl, rfl, rfl⟩

theorem coerceEnumField_ok_of_tame (v : JsValue) (valid : List String) (dflt : String)
    (h : stringOrFalsy v = true) :
    ∃ d, coerceEnumField v valid dflt = .ok d := by
  unfold coerceEnumField
  cases v with
  | str s =>
    by_cases hs : truthy (.str s) = true
    · rw [if_neg (not_not_intro hs)]
      exact ⟨_, rfl⟩
    · rw [if_pos hs]
      exact ⟨dflt, rfl⟩
  | undefined => exact ⟨dflt, by simp [truthy]⟩
  | null => exact ⟨dflt, by simp [truthy]⟩
  | bool b =>
    cases b with
    | false => exact ⟨dflt, by simp [truthy]⟩
    | true => simp [stringOrFalsy, truthy] at h
  | num n =>
    cases n with
    | nan => exact ⟨dflt, by simp [truthy]⟩
    | inf b => simp [stringOrFalsy, truthy] at h
    | fin q =>
      by_cases hq : q = 0
      · subst hq; exact ⟨dflt, by simp [truthy]⟩
      · simp [stringOrFalsy, truthy, hq] at h
  | arr xs => simp [stringOrFalsy, truthy] at h
  | obj fs => simp [stringOrFalsy, truthy] at h

/-- C1: the claim as stated fails — `sanitize` is not total on arbitrary
candidates. On `numericTypeCandidate`, whose `documentType` is the truthy
non-string `1`, the `.toLowerCase()` call raises a `TypeError` instead of
returning a result. -/
theorem sanitize_throws_on_numeric_documentType :
    validateClassificationResult numericTypeCandidate =
      .error "TypeError: toLowerCase is not a function" := rfl

/-- C1 (amended): `sanitize` is deterministic and total on every candidate
whose `documentType` and `department` fields are each a string or falsy
(absent included); no value of the remaining five fields can make it
fail. A truthy non-string in either enum field, however, raises a
`TypeError`. -/
theorem sanitize_total_on_tame_enum_fields (c : ClassificationCandidate)
    (h1 : stringOrFalsy c.documentType = true)
    (h2 : stringOrFalsy c.department = true) :
    (validateClassificationResult c).toOption.isSome = true := by
  obtain ⟨dt, hdt⟩ := coerceEnumField_ok_of_tame c.documentType validDocumentTypes "other" h1
  obtain ⟨dep, hdep⟩ := coerceEnumField_ok_of_tame c.department validDepartments "general" h2
  unfold validateClassificationResult
  rw [hdt, hdep]
  rfl

/-- C1 witness: the amended totality at the all-absent candidate. -/
theorem sanitize_total_on_tame_enum_fields_witness :
    stringOrFalsy undefinedCandidate.documentType = true ∧
    stringOrFalsy undefinedCandidate.department = true ∧
    (validateClassificationResult undefinedCandidate).toOption.isSome = true :=
  ⟨rfl, rfl, sanitize_total_on_tame_enum_fields undefinedCandidate rfl rfl⟩

/-- C3: for every candidate the sanitizer accepts, the output confidence
and routingConfidence are each obtained by the spec's coercion: parse as a
real number, keep a parse in `[0, 1]`, and replace anything else — a
failed parse or an out-of-range value — with `0.5`. -/
theorem sanitize_confidence_clamping (c : ClassificationCandidate)
    (r : ClassificationResult) (h : validateClassificationResult c = .ok r) :
    r.confidence = specConfidenceCoercion c.confidence ∧
    r.routingConfidence = specConfidenceCoercion c.routingConfidence := by
  obtain ⟨-, -, h1, h2, -, -, -⟩ := validate_ok_fields c r h
  rw [h1, h2, validateConfidence_eq_spec, validateConfidence_eq_spec]
  exact ⟨rfl, rfl⟩

/-- C3 witness: an in-range string confidence is kept as the parsed
number, an out-of-range numeric routing confidence becomes `0.5`. -/
theorem sanitize_confidence_clamping_witness :
    validateClassificationResult mixedConfidenceCandidate = .ok mixedConfidenceSanitized ∧
    mixedConfidenceSanitized.confidence = .fin (mkRat 19 20) ∧
    mixedConfidenceSanitized.routingConfidence = .fin (mkRat 1 2) :=
  ⟨rfl,
   (sanitize_confidence_clamping mixedConfidenceCandidate mixedConfidenceSanitized rfl).1,
   (sanitize_confidence_clamping mixedConfidenceCandidate mixedConfidenceSanitized rfl).2⟩

theorem coerceEnumField_on_doc_string (s : String) :
    coerceEnumField (.str s) validDocumentTypes "other" =
      .ok (if validDocumentTypes.contains (jsToLowerCase s) then jsToLowerCase s
           else "other") := by
  by_cases hs : s = ""
  · subst hs
    have h1 : validDocumentTypes.contains (jsToLowerCase "") = false := by decide
    rw [h1]
    rfl
  · unfold coerceEnumField
    rw [if_neg (not_not_intro (by simpa [truthy] using hs))]

theorem coerceEnumField_on_dep_string (s : String) :
    coerceEnumField (.str s) validDepartments "general" =
      .ok (if validDepartments.contains (jsToLowerCase s) then jsToLowerCase s
           else "general") := by
  by_cases hs : s = ""
  · subst hs
    have h1 : validDepartments.contains (jsToLowerCase "") = false := by decide
    rw [h1]
    rfl
  · unfold coerceEnumField
    rw [if_neg (not_not_intro (by simpa [truthy] using hs))]

/-- C4: on string-valued enum fields the sanitizer lower-cases and tests
membership in the fixed sets: a `documentType` outside the seven document
types (case-insensitively) becomes `"other"`, a `department` outside the
five departments becomes `"general"`, and members come out lower-cased. -/
theorem sanitize_enum_coercion (c : ClassificationCandidate) (sd sp : String)
    (r : ClassificationResult)
    (hd : c.documentType = .str sd) (hp : c.department = .str sp)
    (h : validateClassificationResult c = .ok r) :
    r.documentType = (if validDocumentTypes.contains (jsToLowerCase sd)
                      then jsToLowerCase sd else "other") ∧
    r.department = (if validDepartments.contains (jsToLowerCase sp)
                    then jsToLowerCase sp else "general") := by
  obtain ⟨h1, h2, -, -, -, -, -⟩ := validate_ok_fields c r h
  rw [hd, coerceEnumField_on_doc_string] at h1
  rw [hp, coerceEnumField_on_dep_string] at h2
  exact ⟨(Except.ok.injEq _ _ ).mp h1.symm, (Except.ok.injEq _ _ ).mp h2.symm⟩

/-- C4 witness: `"INVOICE"` / `"Finance"` are members case-insensitively
and come out lower-cased. -/
theorem sanitize_enum_coercion_witness :
    validateClassificationResult upperInvoiceCandidate = .ok upperInvoiceSanitized ∧
    upperInvoiceSanitized.documentType = "invoice" ∧
    upperInvoiceSanitized.department = "finance" :=
  ⟨rfl,
   (sanitize_enum_coercion upperInvoiceCandidate "INVOICE" "Finance"
      upperInvoiceSanitized rfl rfl rfl).1,
   (sanitize_enum_coercion upperInvoiceCandidate "INVOICE" "Finance"
      upperInvoiceSanitized rfl rfl rfl).2⟩

/-- C9: the claim as stated fails — `Array.isArray` is the only check, so
an array containing a non-string element is NOT replaced by the empty
sequence: on `numericActionsCandidate` (whose `suggestedActions` is
`[1]`), sanitize keeps `[1]`. -/
theorem suggested_actions_nonstring_array_kept :
    validateClassificationResult numericActionsCandidate = .ok numericActionsSanitized ∧
    numericActionsSanitized.suggestedActions = [.num (.fin (mkRat 1 1))] ∧
    ([JsValue.num (.fin (mkRat 1 1))] ≠ ([] : List JsValue)) :=
  ⟨rfl, rfl, by simp⟩

/-- C9 (amended): the sanitizer replaces `suggestedActions` with the empty
sequence exactly when the field is not an array (absent or any non-array
value); every array — including one with non-string elements — passes
through unchanged. In particular a sequence of strings is unchanged. -/
theorem sanitize_suggested_actions (c : ClassificationCandidate)
    (r : ClassificationResult) (h : validateClassificationResult c = .ok r) :
    r.suggestedActions =
      (match c.suggestedActions with | .arr xs => xs | _ => []) :=
  (validate_ok_fields c r h).2.2.2.2.2.2

/-- C9 witness: a string array passes through unchanged. -/
theorem sanitize_suggested_actions_witness :
    validateClassificationResult stringActionsCandidate = .ok stringActionsSanitized ∧
    stringActionsSanitized.suggestedActions = [.str "Review"] :=
  ⟨rfl, sanitize_suggested_actions stringActionsCandidate stringActionsSanitized rfl⟩

/-- C2: when the reply yields no decodable JSON — no brace-delimited span,
or a span `JSON.parse` rejects — `classifyDocument` substitutes exactly
the fixed fallback candidate and returns its sanitized form instead of
throwing, for every (valid) document content. -/
theorem malformed_reply_yields_fallback (text : String) (h : malformedReply text)
    (content : String) (hc : content ≠ "") :
    parseGeminiResponse text = fallbackCandidate ∧
    classifyDocument (.str content) (.ok text) = .ok fallbackSanitized := by
  have hp : parseGeminiResponse text = fallbackCandidate := by
    unfold parseGeminiResponse
    rcases h with h | ⟨sub, h1, h2⟩
    · rw [h]
    · simp only [h1, h2]
  refine ⟨hp, ?_⟩
  simp only [classifyDocument, if_neg hc]
  rw [hp]
  rfl

/-- C2 witness: a prose reply with no braces yields the sanitized fallback
result. -/
theorem malformed_reply_yields_fallback_witness :
    malformedReply "I am unable to classify this document." ∧
    classifyDocument (.str "some document text")
        (.ok "I am unable to classify this document.") = .ok fallbackSanitized :=
  ⟨Or.inl rfl,
   (malformed_reply_yields_fallback "I am unable to classify this document."
      (Or.inl rfl) "some document text" (by decide)).2⟩

theorem findIdx_open_brace (pre rest : List Char) (hpre : '{' ∉ pre) :
    List.findIdx? (fun c => decide (c = '{')) (pre ++ '{' :: rest) = some pre.length := by
  have hpre' : List.findIdx? (fun c => decide (c = '{')) pre = none := by
    rw [List.findIdx?_eq_none_iff]
    intro x hx
    simp only [decide_eq_false_iff_not]
    exact fun h => hpre (h ▸ hx)
  rw [List.findIdx?_append, hpre']
  simp [List.findIdx?_cons]

theorem findIdx_close_brace (post rest : List Char) (hpost : '}' ∉ post) :
    List.findIdx? (fun c => decide (c = '}')) (post ++ '}' :: rest) = some post.length := by
  have hpost' : List.findIdx? (fun c => decide (c = '}')) post = none := by
    rw [List.findIdx?_eq_none_iff]
    intro x hx
    simp only [decide_eq_false_iff_not]
    exact fun h => hpost (h ▸ hx)
  rw [List.findIdx?_append, hpost']
  simp [List.findIdx?_cons]

theorem jsonMatch_greedy (pre mid post : List Char)
    (hpre : '{' ∉ pre) (hpost : '}' ∉ post) :
    jsonMatch ⟨pre ++ '{' :: (mid ++ '}' :: post)⟩ = some ⟨'{' :: (mid ++ ['}'])⟩ := by
  have h1 : List.findIdx? (fun c => decide (c = '{')) (pre ++ '{' :: (mid ++ '}' :: post)) =
      some pre.length := findIdx_open_brace pre _ hpre
  have hrev : (pre ++ '{' :: (mid ++ '}' :: post)).reverse =
      post.reverse ++ '}' :: (mid.reverse ++ '{' :: pre.reverse) := by
    simp
  have h2 : List.findIdx? (fun c => decide (c = '}'))
      (pre ++ '{' :: (mid ++ '}' :: post)).reverse = some post.reverse.length := by
    rw [hrev]
    exact findIdx_close_brace post.reverse _ (by simpa using hpost)
  have hlen : (pre ++ '{' :: (mid ++ '}' :: post)).length =
      pre.length + mid.length + post.length + 2 := by
    simp [List.length_append]
    omega
  unfold jsonMatch
  rw [show (String.mk (pre ++ '{' :: (mid ++ '}' :: post))).data =
        pre ++ '{' :: (mid ++ '}' :: post) from rfl]
  rw [h1, h2]
  have hj : (pre ++ '{' :: (mid ++ '}' :: post)).length - 1 - post.reverse.length =
      pre.length + mid.length + 1 := by
    rw [hlen, List.length_reverse]
    omega
  show (if pre.length < (pre ++ '{' :: (mid ++ '}' :: post)).length - 1 - post.reverse.length
        then some (String.mk (((pre ++ '{' :: (mid ++ '}' :: post)).drop pre.length).take
          ((pre ++ '{' :: (mid ++ '}' :: post)).length - 1 - post.reverse.length - pre.length + 1)))
        else none) = some (String.mk ('{' :: (mid ++ ['}'])))
  rw [hj]
  rw [if_pos (by omega)]
  have hdrop : (pre ++ '{' :: (mid ++ '}' :: post)).drop pre.length =
      '{' :: (mid ++ '}' :: post) := List.drop_left pre _
  rw [hdrop]
  have htake : ('{' :: (mid ++ '}' :: post)).take (pre.length + mid.length + 1 - pre.length + 1) =
      '{' :: (mid ++ ['}']) := by
    have h3 : pre.length + mid.length + 1 - pre.length + 1 = mid.length + 2 := by omega
    rw [h3]
    rw [List.take_succ_cons]
    rw [List.take_append_eq_append_take]
    rw [List.take_of_length_le (by omega)]
    simp
  rw [htake]

/-- C5: the claim as stated fails — the match step is greedy, not a
first-balanced-object search. On a reply carrying a valid JSON object
followed by prose with a second brace pair, the code matches from the
first open brace to the LAST close brace; that span fails `JSON.parse`,
so the fallback candidate (documentType `"other"`) results, although the
first balanced JSON object substring decodes to documentType
`"invoice"`. -/
theorem greedy_match_overrides_first_object :
    jsonMatch "Sure! \x7b\"documentType\": \"invoice\"\x7d Note: braces \x7b\"n\": \"v\"\x7d" =
      some "\x7b\"documentType\": \"invoice\"\x7d Note: braces \x7b\"n\": \"v\"\x7d" ∧
    jsonParse "\x7b\"documentType\": \"invoice\"\x7d Note: braces \x7b\"n\": \"v\"\x7d" = none ∧
    jsonParse "\x7b\"documentType\": \"invoice\"\x7d" =
      some (.obj [("documentType", .str "invoice")]) ∧
    (candidateOfJson (.obj [("documentType", .str "invoice")])).documentType = .str "invoice" ∧
    parseGeminiResponse
        "Sure! \x7b\"documentType\": \"invoice\"\x7d Note: braces \x7b\"n\": \"v\"\x7d" =
      fallbackCandidate ∧
    fallbackCandidate.documentType = .str "other" ∧
    JsValue.str "invoice" ≠ JsValue.str "other" :=
  ⟨rfl, rfl, rfl, rfl, rfl, rfl, by simp⟩

/-- C5 (amended): the Classifier Gateway extracts the greedy span running
from the first open brace of the reply to its last close brace (when such
a pair exists in order) and decodes that span; consequently, for a reply
containing a valid JSON object followed by further text with another
brace, the decode applies to the whole greedy span — and when that span
is not valid JSON, the fallback candidate is substituted rather than the
first balanced object's decoding. -/
theorem gateway_decodes_greedy_span (pre mid post : List Char)
    (hpre : '{' ∉ pre) (hpost : '}' ∉ post) :
    jsonMatch ⟨pre ++ '{' :: (mid ++ '}' :: post)⟩ = some ⟨'{' :: (mid ++ ['}'])⟩ ∧
    (jsonParse ⟨'{' :: (mid ++ ['}'])⟩ = none →
      parseGeminiResponse ⟨pre ++ '{' :: (mid ++ '}' :: post)⟩ = fallbackCandidate) := by
  have hm := jsonMatch_greedy pre mid post hpre hpost
  refine ⟨hm, fun hfail => ?_⟩
  unfold parseGeminiResponse
  simp only [hm, hfail]

/-- C5 witness: the amended greedy-span behaviour at a concrete two-object
reply. -/
theorem gateway_decodes_greedy_span_witness :
    ('{' ∉ "Sure! ".data) ∧ ('}' ∉ " Done.".data) ∧
    parseGeminiResponse
        ⟨"Sure! ".data ++ '{' :: ("\"a\": \"b\"\x7d and \x7b\"c\": \"d\"".data ++ '}' :: " Done.".data)⟩ =
      fallbackCandidate :=
  ⟨by decide, by decide,
   (gateway_decodes_greedy_span "Sure! ".data "\"a\": \"b\"\x7d and \x7b\"c\": \"d\"".data
      " Done.".data (by decide) (by decide)).2 rfl⟩

/-- C6: truncation before classification. Text over the 50,000-character
cap is cut to the cap and the marker appended — the text handed to the
classifier has length cap + marker-length and ends with the marker — and
text at or under the cap passes through unchanged; moreover each flow
hands the classifier exactly its own truncation of the extracted/request
text (when it reaches the classifier at all). -/
theorem truncation_policy (s : String) :
    (s.length > maxTextLength →
      (processDocumentTruncate s).length = maxTextLength + truncationMarker.length ∧
      truncationMarker.data <:+ (processDocumentTruncate s).data ∧
      (classifyTextTruncate s).length = maxTextLength + truncationMarker.length ∧
      truncationMarker.data <:+ (classifyTextTruncate s).data) ∧
    (s.length ≤ maxTextLength →
      processDocumentTruncate s = s ∧ classifyTextTruncate s = s) ∧
    (∀ (f : UploadedFile) (ext : String) (call : Except String String),
      (processDocument (some f) (.ok ext) call).sentToClassifier = none ∨
      (processDocument (some f) (.ok ext) call).sentToClassifier =
        some (processDocumentTruncate ext)) ∧
    (∀ (t : String) (call : Except String String),
      (classifyText (.str t) call).sentToClassifier = none ∨
      (classifyText (.str t) call).sentToClassifier = some (classifyTextTruncate t)) := by
  have hcutlen : s.length > maxTextLength →
      (jsSubstringTo s maxTextLength ++ truncationMarker).length =
        maxTextLength + truncationMarker.length := by
    intro h
    rw [String.length_append]
    have h1 : (jsSubstringTo s maxTextLength).length = maxTextLength := by
      show (s.data.take maxTextLength).length = maxTextLength
      rw [List.length_take]
      exact min_eq_left (le_of_lt h)
    rw [h1]
  have hcutsuf : truncationMarker.data <:+ (jsSubstringTo s maxTextLength ++ truncationMarker).data := by
    rw [String.data_append]
    exact List.suffix_append _ _
  refine ⟨fun h => ?_, fun h => ?_, fun f ext call => ?_, fun t call => ?_⟩
  · have e1 : processDocumentTruncate s = jsSubstringTo s maxTextLength ++ truncationMarker := by
      unfold processDocumentTruncate
      rw [if_pos h]
    have e2 : classifyTextTruncate s = jsSubstringTo s maxTextLength ++ truncationMarker := by
      unfold classifyTextTruncate
      rw [if_pos h]
    rw [e1, e2]
    exact ⟨hcutlen h, hcutsuf, hcutlen h, hcutsuf⟩
  · constructor
    · unfold processDocumentTruncate
      rw [if_neg (by omega)]
    · unfold classifyTextTruncate
      rw [if_neg (by omega)]
  · unfold processDocument
    repeat' split
    all_goals injections
    all_goals subst_vars
    all_goals first
      | (left; rfl)
      | (right; rfl)
  · unfold classifyText
    repeat' split
    all_goals injections
    all_goals subst_vars
    all_goals first
      | (left; rfl)
      | (right; rfl)

/-- C6 witness: a 50,001-character text is cut to cap-plus-marker length
and ends with the marker. -/
theorem truncation_policy_witness :
    longSampleText.length > maxTextLength ∧
    (processDocumentTruncate longSampleText).length =
      maxTextLength + truncationMarker.length ∧
    truncationMarker.data <:+ (classifyTextTruncate longSampleText).data := by
  have hl : longSampleText.length = 50001 := by
    show (List.replicate 50001 'a').length = 50001
    exact List.length_replicate 50001 'a'
  have h : longSampleText.length > maxTextLength := by
    rw [hl]
    norm_num [maxTextLength]
  exact ⟨h, ((truncation_policy longSampleText).1 h).1,
    ((truncation_policy longSampleText).1 h).2.2.2⟩

theorem processDocumentTruncate_ne_empty (s : String) (h : s ≠ "") :
    processDocumentTruncate s ≠ "" := by
  unfold processDocumentTruncate
  split
  · intro hc
    have hlen := congrArg String.length hc
    rw [String.length_append] at hlen
    have hm : truncationMarker.length = 15 := rfl
    have h0 : ("" : String).length = 0 := rfl
    rw [hm, h0] at hlen
    omega
  · exact h

/-- C7: the asymmetric failure policy. When the external Gemini call
itself fails — for any transport/auth/quota error — and the request was
otherwise valid, `processDocument` propagates the hard
`ApiError(500, "Failed to classify document with AI model")` (the
spec's `ClassificationUnavailable`) to the caller instead of substituting
the fallback candidate, and the `finally` block still cleans up the
transient uploaded file on that error path. -/
theorem classification_unavailable_propagates (f : UploadedFile) (ext : String)
    (transportError : String)
    (hpath : f.path ≠ "") (hsize : f.size ≤ configMaxFileSize)
    (htype : configAllowedFileTypes.contains f.mimetype = true) (hext : ext ≠ "") :
    (processDocument (some f) (.ok ext) (.error transportError)).result =
      .error ⟨500, "Failed to classify document with AI model"⟩ ∧
    (processDocument (some f) (.ok ext) (.error transportError)).cleanupInvoked = true := by
  have hcd : classifyDocument (.str (processDocumentTruncate ext)) (.error transportError) =
      .error ⟨500, "Failed to classify document with AI model"⟩ := by
    simp only [classifyDocument, if_neg (processDocumentTruncate_ne_empty ext hext)]
  simp only [processDocument]
  rw [if_neg (by omega), if_neg (not_not_intro htype)]
  rw [hcd]
  exact ⟨rfl, by simp [hpath]⟩

/-- C7 witness: a concrete valid upload whose external call raises a
transport error. -/
theorem classification_unavailable_propagates_witness :
    sampleUpload.path ≠ "" ∧
    sampleUpload.size ≤ configMaxFileSize ∧
    configAllowedFileTypes.contains sampleUpload.mimetype = true ∧
    (processDocument (some sampleUpload) (.ok "Invoice 123") (.error "ECONNRESET")).result =
      .error ⟨500, "Failed to classify document with AI model"⟩ ∧
    (processDocument (some sampleUpload) (.ok "Invoice 123") (.error "ECONNRESET")).cleanupInvoked = true :=
  ⟨by decide, by decide, by decide,
   (classification_unavailable_propagates sampleUpload "Invoice 123" "ECONNRESET"
      (by decide) (by decide) (by decide) (by decide)).1,
   (classification_unavailable_propagates sampleUpload "Invoice 123" "ECONNRESET"
      (by decide) (by decide) (by decide) (by decide)).2⟩

theorem mkRat_high : mkRat 4 5 = (0.8 : ℚ) := by
  norm_num [Rat.mkRat_eq_div]

theorem mkRat_medium : mkRat 3 5 = (0.6 : ℚ) := by
  norm_num [Rat.mkRat_eq_div]

/-- C8 (amended): the Routing Advisor is a pure function of its
arguments. `getConfidenceLevel` returns `"high"` iff confidence ≥ 0.8,
`"medium"` iff 0.6 ≤ confidence < 0.8 and `"low"` iff confidence < 0.6;
`getRoutingRecommendation` maps the department through the fixed display
table and produces the automatic-routing / suggested-routing-with-review /
manual-review-required message by the same 0.8 / 0.6 bands on the routing
confidence; being functions, identical inputs give identical strings. A
department outside the five known keys yields `"General Administration"`
only when it is also not the name of an `Object.prototype` property: a
department named after an inherited property (`"constructor"`,
`"toString"`, …) finds the inherited truthy built-in, skips the `||`
fallback, and its string form — never `"General Administration"` — is
interpolated instead. -/
theorem routing_advisor_bands (d : String) (q : ℚ) :
    (getConfidenceLevel (.fin q) = "high" ↔ 0.8 ≤ q) ∧
    (getConfidenceLevel (.fin q) = "medium" ↔ 0.6 ≤ q ∧ q < 0.8) ∧
    (getConfidenceLevel (.fin q) = "low" ↔ q < 0.6) ∧
    getRoutingRecommendation d (.fin q) =
      (if 0.8 ≤ q then
        "Recommended for automatic routing to " ++ departmentDisplayName d
       else if 0.6 ≤ q then
        "Suggested routing to " ++ departmentDisplayName d ++ " - Manual review recommended"
       else
        "Low confidence routing to " ++ departmentDisplayName d ++ " - Manual review required") ∧
    (d ∉ ["finance", "procurement", "legal", "operations", "general"] →
      d ∉ objectPrototypeProperties →
      departmentDisplayName d = "General Administration") ∧
    (d ∉ ["finance", "procurement", "legal", "operations", "general"] →
      d ∈ objectPrototypeProperties →
      departmentDisplayName d = inheritedBuiltinString d ∧
      departmentDisplayName d ≠ "General Administration") := by
  have hge8 : jsGe (.fin q) (mkRat 4 5) = decide ((0.8 : ℚ) ≤ q) := by
    rw [show jsGe (.fin q) (mkRat 4 5) = decide (mkRat 4 5 ≤ q) from rfl, mkRat_high]
  have hge6 : jsGe (.fin q) (mkRat 3 5) = decide ((0.6 : ℚ) ≤ q) := by
    rw [show jsGe (.fin q) (mkRat 3 5) = decide (mkRat 3 5 ≤ q) from rfl, mkRat_medium]
  refine ⟨?_, ?_, ?_, ?_, ?_, ?_⟩
  · unfold getConfidenceLevel
    rw [hge8, hge6]
    by_cases h8 : (0.8 : ℚ) ≤ q
    · simp [h8]
    · by_cases h6 : (0.6 : ℚ) ≤ q
      · simp [h8, h6]
      · simp [h8, h6]
  · unfold getConfidenceLevel
    rw [hge8, hge6]
    by_cases h8 : (0.8 : ℚ) ≤ q
    · simp [h8]
    · by_cases h6 : (0.6 : ℚ) ≤ q
      · simp [h8, h6]
        exact lt_of_not_le h8
      · simp [h8, h6]
  · unfold getConfidenceLevel
    rw [hge8, hge6]
    by_cases h8 : (0.8 : ℚ) ≤ q
    · simp [h8]
      linarith
    · by_cases h6 : (0.6 : ℚ) ≤ q
      · simp [h8, h6]
      · simp [h8, h6]
        exact lt_of_not_le h6
  · unfold getRoutingRecommendation
    rw [hge8, hge6]
    by_cases h8 : (0.8 : ℚ) ≤ q
    · simp [h8]
    · by_cases h6 : (0.6 : ℚ) ≤ q
      · simp [h8, h6]
      · simp [h8, h6]
  · intro hd hp
    simp only [List.mem_cons, List.mem_singleton, not_or] at hd
    obtain ⟨n1, n2, n3, n4, hrest⟩ := hd
    have n5 : d ≠ "general" := by
      simpa using hrest
    unfold departmentDisplayName departmentNames
    simp [List.find?, Ne.symm n1, Ne.symm n2, Ne.symm n3, Ne.symm n4, Ne.symm n5, hp]
  · intro hd hp
    fin_cases hp <;> exact ⟨rfl, by decide⟩

/-- C8: the original claim fails — JavaScript property access consults
the prototype chain, so `departmentNames["constructor"]` finds the
inherited, truthy `Object.prototype.constructor` and the
`|| 'General Administration'` fallback is skipped: the unknown department
`"constructor"` does not map to `"General Administration"`. -/
theorem department_constructor_not_general :
    "constructor" ∉ ["finance", "procurement", "legal", "operations", "general"] ∧
    departmentDisplayName "constructor" = inheritedBuiltinString "constructor" ∧
    departmentDisplayName "constructor" ≠ "General Administration" :=
  ⟨by decide, rfl, by decide⟩

/-- C8 witness: an unknown department that is not a prototype property
maps to the general-administration display name, a prototype-property
department does not, and 0.9 lands in the high band. -/
theorem routing_advisor_bands_witness :
    "marketing" ∉ ["finance", "procurement", "legal", "operations", "general"] ∧
    "marketing" ∉ objectPrototypeProperties ∧
    departmentDisplayName "marketing" = "General Administration" ∧
    "toString" ∈ objectPrototypeProperties ∧
    departmentDisplayName "toString" ≠ "General Administration" ∧
    getConfidenceLevel (.fin 0.9) = "high" :=
  ⟨by decide, by decide,
   (routing_advisor_bands "marketing" 0.9).2.2.2.2.1 (by decide) (by decide),
   by decide,
   ((routing_advisor_bands "toString" 0.9).2.2.2.2.2 (by decide) (by decide)).2,
   (routing_advisor_bands "marketing" 0.9).1.mpr (by norm_num)⟩

/-- C10: `classifyText` rejects not only the empty string but every input
whose trim is empty and every falsy or non-string input: it fails with a
400 `ApiError` — `"Text content is required"` for falsy/non-string input,
`"Text content cannot be empty"` for whitespace-only strings — and no
text is ever handed to the external classifier for such inputs,
whatever the external call would have returned. -/
theorem classify_text_rejects_blank (v : JsValue) (call : Except String String)
    (h : ∀ s, v = .str s → jsTrim s = "") :
    ((classifyText v call).result = .error ⟨400, "Text content is required"⟩ ∨
     (classifyText v call).result = .error ⟨400, "Text content cannot be empty"⟩) ∧
    (classifyText v call).sentToClassifier = none := by
  unfold classifyText
  by_cases ht : truthy v = true
  · rw [if_neg (not_not_intro ht)]
    cases v with
    | str s =>
      have hs0 : (jsTrim s).length = 0 := by rw [h s rfl]; rfl
      repeat' split
      all_goals injections
      all_goals subst_vars
      all_goals first
        | exact ⟨Or.inr rfl, rfl⟩
        | exact absurd hs0 (by assumption)
    | undefined => exact ⟨Or.inl rfl, rfl⟩
    | null => exact ⟨Or.inl rfl, rfl⟩
    | bool b => exact ⟨Or.inl rfl, rfl⟩
    | num n => exact ⟨Or.inl rfl, rfl⟩
    | arr xs => exact ⟨Or.inl rfl, rfl⟩
    | obj fs => exact ⟨Or.inl rfl, rfl⟩
  · rw [if_pos ht]
    exact ⟨Or.inl rfl, rfl⟩

/-- C10 witness: a whitespace-only string is rejected with 400 before any
external call. -/
theorem classify_text_rejects_blank_witness :
    (classifyText (.str "   \n ") (.ok "reply")).result =
      .error ⟨400, "Text content cannot be empty"⟩ ∧
    (classifyText (.str "   \n ") (.ok "reply")).sentToClassifier = none :=
  ⟨rfl,
   (classify_text_rejects_blank (.str "   \n ") (.ok "reply")
      (fun s hs => by cases hs; rfl)).2⟩
